import Mathlib

/-
Verification of the critique_refine orchestration engine against its
natural-language specification.

The development shallowly embeds the Python sources:
  src/utils/redact.py      (redactor)
  src/utils/logger.py      (structured logger, modelled by write counting)
  src/core/model_router.py (model resolution, dry run, fallback policy)
  src/core/loop.py         (critique/refine loop controller)
Pure Python functions become Lean functions; model calls and exceptions are
made explicit via parameters and Except values.
-/

namespace CritiqueRefine

/-! ### Redactor (src/utils/redact.py)

`_redact_dict_recursive` walks nested dicts/lists, masks values of keys in
`keys_to_redact`, and applies
`re.sub(pattern, replacement, text, flags=re.IGNORECASE)` for every
`(pattern, replacement)` rule to string leaves.

Regex patterns are modelled as literal (metacharacter-free) patterns:
`ciReplaceAll` performs case-insensitive, leftmost, non-overlapping
replacement of every occurrence, which is `re.sub`'s behaviour on that
fragment of regular expressions. -/

mutual
/-- Nested structures handled by the redactor: strings, lists, dicts, and
opaque non-str/list/dict leaves (numbers, booleans, None), which the code
returns unchanged. -/
inductive RVal where
  | rstr : String → RVal
  | rother : Nat → RVal
  | rlist : RList → RVal
  | rdict : RDict → RVal
  deriving DecidableEq
/-- Spine of a Python list value. -/
inductive RList where
  | rnil : RList
  | rcons : RVal → RList → RList
  deriving DecidableEq
/-- Spine of a Python dict value: ordered key/value entries. -/
inductive RDict where
  | dnil : RDict
  | dcons : String → RVal → RDict → RDict
  deriving DecidableEq
end

/-- Case-insensitive match of the literal pattern `ps` against a prefix of
`cs`; returns the remainder after the match. -/
def ciMatch : List Char → List Char → Option (List Char)
  | [], rest => some rest
  | _ :: _, [] => none
  | p :: ps, c :: cs => if p.toLower == c.toLower then ciMatch ps cs else none

/-- Fuel-based worker for `ciReplaceAll`; fuel only serves termination and
is never exhausted when it exceeds the text length (see
`ciReplaceAllFuel_congr`). -/
def ciReplaceAllFuel : Nat → List Char → List Char → List Char → List Char
  | 0, _, _, text => text
  | fuel + 1, pat, repl, text =>
    match pat, text with
    | [], [] => repl
    | [], c :: cs => repl ++ c :: ciReplaceAllFuel fuel [] repl cs
    | _ :: _, [] => []
    | p :: ps, c :: cs =>
      match ciMatch (p :: ps) (c :: cs) with
      | some rest => repl ++ ciReplaceAllFuel fuel (p :: ps) repl rest
      | none => c :: ciReplaceAllFuel fuel (p :: ps) repl cs

theorem ciMatch_length_le :
    ∀ (ps cs rest : List Char), ciMatch ps cs = some rest → rest.length ≤ cs.length
  | [], cs, rest, h => by
    simp [ciMatch] at h; simp [h]
  | _ :: _, [], _, h => by simp [ciMatch] at h
  | p :: ps, c :: cs, rest, h => by
    by_cases hc : p.toLower == c.toLower
    · simp [ciMatch, hc] at h
      exact Nat.le_succ_of_le (ciMatch_length_le ps cs rest h)
    · simp [ciMatch, hc] at h

theorem ciMatch_cons_length (p : Char) (ps : List Char) (c : Char) (cs rest : List Char)
    (hm : ciMatch (p :: ps) (c :: cs) = some rest) : rest.length ≤ cs.length := by
  by_cases hc : p.toLower == c.toLower
  · simp [ciMatch, hc] at hm
    exact ciMatch_length_le ps cs rest hm
  · simp [ciMatch, hc] at hm

/-- Any two sufficient fuel values agree, certifying that the wrapper
`ciReplaceAll` computes the fuel-independent replacement function. -/
theorem ciReplaceAllFuel_congr :
    ∀ (f₁ f₂ : Nat) (pat repl text : List Char), text.length < f₁ → text.length < f₂ →
      ciReplaceAllFuel f₁ pat repl text = ciReplaceAllFuel f₂ pat repl text
  | 0, _, _, _, _, h₁, _ => absurd h₁ (Nat.not_lt_zero _)
  | _ + 1, 0, _, _, text, _, h₂ => absurd h₂ (Nat.not_lt_zero _)
  | f₁ + 1, f₂ + 1, pat, repl, text, h₁, h₂ => by
    match pat, text with
    | [], [] => rfl
    | [], c :: cs =>
      simp only [ciReplaceAllFuel]
      rw [ciReplaceAllFuel_congr f₁ f₂ [] repl cs
        (Nat.lt_of_succ_lt_succ h₁) (Nat.lt_of_succ_lt_succ h₂)]
    | _ :: _, [] => rfl
    | p :: ps, c :: cs =>
      simp only [ciReplaceAllFuel]
      cases hm : ciMatch (p :: ps) (c :: cs) with
      | some rest =>
        have hr : rest.length ≤ cs.length := ciMatch_cons_length p ps c cs rest hm
        have e := ciReplaceAllFuel_congr f₁ f₂ (p :: ps) repl rest
          (Nat.lt_of_le_of_lt hr (Nat.lt_of_succ_lt_succ h₁))
          (Nat.lt_of_le_of_lt hr (Nat.lt_of_succ_lt_succ h₂))
        simp [e]
      | none =>
        have e := ciReplaceAllFuel_congr f₁ f₂ (p :: ps) repl cs
          (Nat.lt_of_succ_lt_succ h₁) (Nat.lt_of_succ_lt_succ h₂)
        simp [e]

/-- Case-insensitive replacement of every (leftmost, non-overlapping)
occurrence of the literal pattern `pat` by `repl`, modelling
`re.sub(pat, repl, text, flags=re.IGNORECASE)` for literal patterns.
An empty pattern inserts `repl` at every position, as `re.sub` does. -/
def ciReplaceAll (pat repl text : List Char) : List Char :=
  ciReplaceAllFuel (text.length + 1) pat repl text

/-- String leaves are passed through every `(pattern, replacement)` rule in
order (the `for pattern, replacement in patterns` loop). -/
def applyPatterns (pats : List (String × String)) (s : String) : String :=
  pats.foldl (fun t pr => String.mk (ciReplaceAll pr.1.data pr.2.data t.data)) s

/-- Character-wise upper-casing, modelling Python `str.upper()` on ASCII
keys (the `f"[REDACTED_{key.upper()}]"` placeholder). -/
def strUpper (s : String) : String :=
  String.mk (s.data.map Char.toUpper)

mutual
/-- Embedding of `_redact_dict_recursive`: dict keys in `keys` get the
placeholder embedding the upper-cased key (no recursion into the value);
other dict values and list items are recursed into; strings get the pattern
pass; other leaves are unchanged. The Python code operates on a deep copy,
which the pure model renders by construction. -/
def redact (keys : List String) (pats : List (String × String)) : RVal → RVal
  | .rstr s => .rstr (applyPatterns pats s)
  | .rother n => .rother n
  | .rlist l => .rlist (redactRList keys pats l)
  | .rdict es => .rdict (redactEntries keys pats es)
/-- Redaction mapped over the items of a list value. -/
def redactRList (keys : List String) (pats : List (String × String)) :
    RList → RList
  | .rnil => .rnil
  | .rcons v vs => .rcons (redact keys pats v) (redactRList keys pats vs)
/-- Redaction mapped over the entries of a dict value: the
`if key in keys_to_redact` test is exact, case-sensitive string equality
(`List.contains` with string equality). -/
def redactEntries (keys : List String) (pats : List (String × String)) :
    RDict → RDict
  | .dnil => .dnil
  | .dcons k v es =>
    if k ∈ keys then
      .dcons k (RVal.rstr ("[REDACTED_" ++ strUpper k ++ "]")) (redactEntries keys pats es)
    else
      .dcons k (redact keys pats v) (redactEntries keys pats es)
end

mutual
/-- Idempotence of redaction, assuming the pattern pass is idempotent on
every string. -/
theorem redactIdemAux (keys : List String) (pats : List (String × String))
    (h : ∀ s, applyPatterns pats (applyPatterns pats s) = applyPatterns pats s) :
    ∀ v, redact keys pats (redact keys pats v) = redact keys pats v
  | .rstr s => by simp [redact, h]
  | .rother n => by simp [redact]
  | .rlist l => by simp [redact, redactRListIdemAux keys pats h l]
  | .rdict es => by simp [redact, redactEntriesIdemAux keys pats h es]
/-- List version of `redactIdemAux`. -/
theorem redactRListIdemAux (keys : List String) (pats : List (String × String))
    (h : ∀ s, applyPatterns pats (applyPatterns pats s) = applyPatterns pats s) :
    ∀ l, redactRList keys pats (redactRList keys pats l) = redactRList keys pats l
  | .rnil => by simp [redactRList]
  | .rcons v vs => by
    simp [redactRList, redactIdemAux keys pats h v, redactRListIdemAux keys pats h vs]
/-- Dict-entry version of `redactIdemAux`. -/
theorem redactEntriesIdemAux (keys : List String) (pats : List (String × String))
    (h : ∀ s, applyPatterns pats (applyPatterns pats s) = applyPatterns pats s) :
    ∀ es, redactEntries keys pats (redactEntries keys pats es) = redactEntries keys pats es
  | .dnil => by simp [redactEntries]
  | .dcons k v es => by
    by_cases hk : k ∈ keys
    · simp [redactEntries, hk, redactEntriesIdemAux keys pats h es]
    · simp [redactEntries, hk, redactIdemAux keys pats h v,
        redactEntriesIdemAux keys pats h es]
end

/-! ### Claims C7 and C10 (redactor) -/

/-- C7 counterexample: redaction is NOT idempotent for every pattern list.
With the single rule `("a", "aa")` (replacement re-matches the pattern),
redacting the already-redacted string `"a"` changes it again
(`"aa"` becomes `"aaaa"`). -/
theorem c7_redaction_idempotent_counterexample :
    ¬ (redact [] [("a", "aa")] (redact [] [("a", "aa")] (.rstr "a")) =
        redact [] [("a", "aa")] (.rstr "a")) := by
  decide

/-- C7 (amended): redaction never mutates its input (the code deep-copies,
and the pure model renders this by construction), and it is idempotent for
every key list and input structure provided the pattern pass itself is
idempotent on every string — e.g. whenever no replacement text re-matches
any pattern, and in particular for an empty pattern list; a re-matching
replacement such as `("a", "aa")` breaks idempotence. -/
theorem c7_redaction_idempotent_amended (keys : List String)
    (pats : List (String × String))
    (h : ∀ s, applyPatterns pats (applyPatterns pats s) = applyPatterns pats s)
    (v : RVal) :
    redact keys pats (redact keys pats v) = redact keys pats v :=
  redactIdemAux keys pats h v

/-- C7 witness: with the empty pattern list (whose pass is the identity,
hence idempotent) and key list `["api_key"]`, redaction of a sample
structure is idempotent. -/
theorem c7_redaction_idempotent_witness :
    redact ["api_key"] []
        (redact ["api_key"] []
          (.rdict (.dcons "api_key" (.rstr "secret")
            (.dcons "note" (.rstr "hello") .dnil)))) =
      redact ["api_key"] []
        (.rdict (.dcons "api_key" (.rstr "secret")
          (.dcons "note" (.rstr "hello") .dnil))) :=
  c7_redaction_idempotent_amended ["api_key"] [] (fun _ => rfl)
    (.rdict (.dcons "api_key" (.rstr "secret") (.dcons "note" (.rstr "hello") .dnil)))

/-- C10: key masking is exact and case-sensitive. A key in the sensitive
list has its value replaced by the placeholder embedding the upper-cased
key, with no recursion into the (arbitrary) value; a key not in the list —
however it compares case-insensitively — has its value recursed into
normally. -/
theorem c10_key_masking_case_sensitive (keys : List String)
    (pats : List (String × String)) (k : String) (v : RVal) (rest : RDict) :
    (k ∈ keys →
      redact keys pats (.rdict (.dcons k v rest)) =
        .rdict (.dcons k (.rstr ("[REDACTED_" ++ strUpper k ++ "]"))
          (redactEntries keys pats rest))) ∧
    (k ∉ keys →
      redact keys pats (.rdict (.dcons k v rest)) =
        .rdict (.dcons k (redact keys pats v) (redactEntries keys pats rest))) := by
  constructor
  · intro hk
    simp [redact, redactEntries, hk]
  · intro hk
    simp [redact, redactEntries, hk]

/-- C10 witness: with sensitive key list `["token"]`, the exactly-matching
key `"token"` is masked without recursing into its dict value (which itself
contains a sensitive key), while the case-variant key `"Token"` is not
masked and its value is recursed into. -/
theorem c10_key_masking_case_sensitive_witness :
    redact ["token"] []
        (.rdict (.dcons "token" (.rdict (.dcons "token" (.rstr "s") .dnil)) .dnil)) =
      .rdict (.dcons "token" (.rstr "[REDACTED_TOKEN]") .dnil) ∧
    redact ["token"] [] (.rdict (.dcons "Token" (.rstr "s") .dnil)) =
      .rdict (.dcons "Token" (.rstr "s") .dnil) := by
  constructor
  · have h := (c10_key_masking_case_sensitive ["token"] [] "token"
      (.rdict (.dcons "token" (.rstr "s") .dnil)) .dnil).1 (by decide)
    rw [h]; decide
  · have h := (c10_key_masking_case_sensitive ["token"] [] "Token"
      (.rstr "s") .dnil).2 (by decide)
    rw [h]; decide

/-! ### JSON values and `json.loads` (used by `_get_meta_critique`)

`CritiqueRefineLoop._get_meta_critique` (src/core/loop.py) feeds the
meta-critic's string response to `json.loads`. The parser below models
`json.loads` with its default arguments: objects, arrays, strings (the
standard escapes and `\uXXXX` escapes with surrogate-pair combination;
strict-mode rejection of raw control characters), integer numbers, float
numbers (the RFC 8259 grammar, maximal-munch as in the scanner's regex, so
`01` scans as `0` and then fails on the trailing `1` as extra data exactly
like `json.loads`), `true`, `false`, `null`, and the non-standard
constants `NaN`, `Infinity`, `-Infinity` that `json.loads` accepts by
default. A parsed float is kept as the exact decimal value the literal
denotes; IEEE-754 rounding of extreme literals (overflow to infinity,
underflow to zero) is not modelled — it could only affect Python
truthiness of such a float, on which nothing below depends. Fuel only
serves termination; one unit of fuel is consumed per nested construct, and
at least one input character is consumed before each recursive call, so
`length + 1` fuel never runs out. -/

/-- A Python float produced by `json.loads`: a finite value written as a
decimal literal, kept exactly as `mantissa × 10 ^ exponent`, or one of the
constants `Infinity`, `-Infinity`, `NaN`. -/
inductive JFloat where
  | finite : Int → Int → JFloat
  | inf : JFloat
  | ninf : JFloat
  | nan : JFloat
  deriving DecidableEq

mutual
/-- A parsed JSON value (a Python object as returned by `json.loads`). -/
inductive JVal where
  | jnull : JVal
  | jbool : Bool → JVal
  | jnum : Int → JVal
  | jfloat : JFloat → JVal
  | jstr : String → JVal
  | jarr : JArr → JVal
  | jobj : JObj → JVal
  deriving DecidableEq
/-- Spine of a JSON array. -/
inductive JArr where
  | anil : JArr
  | acons : JVal → JArr → JArr
  deriving DecidableEq
/-- Spine of a JSON object: ordered key/value members. -/
inductive JObj where
  | onil : JObj
  | ocons : String → JVal → JObj → JObj
  deriving DecidableEq
end

/-- The double-quote character. -/
def qChar : Char := Char.ofNat 34
/-- The backslash character. -/
def bsChar : Char := Char.ofNat 92
/-- The left-brace character. -/
def lbChar : Char := Char.ofNat 123
/-- The right-brace character. -/
def rbChar : Char := Char.ofNat 125

/-- Skip JSON whitespace. -/
def jskipWs (cs : List Char) : List Char :=
  cs.dropWhile (fun ch => ch == ' ' || ch == '\t' || ch == '\n' || ch == '\r')

/-- Translate a JSON string escape character. -/
def escChar (e : Char) : Option Char :=
  if e == qChar then some qChar
  else if e == bsChar then some bsChar
  else if e == '/' then some '/'
  else if e == 'n' then some '\n'
  else if e == 't' then some '\t'
  else if e == 'r' then some '\r'
  else if e == 'b' then some (Char.ofNat 8)
  else if e == 'f' then some (Char.ofNat 12)
  else none

/-- The value of a hexadecimal digit, if it is one. -/
def hexDigitVal (c : Char) : Option Nat :=
  let n := c.toNat
  if 48 ≤ n ∧ n ≤ 57 then some (n - 48)
  else if 97 ≤ n ∧ n ≤ 102 then some (n - 87)
  else if 65 ≤ n ∧ n ≤ 70 then some (n - 55)
  else none

/-- Four hexadecimal digits (the payload of a `\uXXXX` escape). -/
def hex4 : List Char → Option (Nat × List Char)
  | a :: b :: c :: d :: rest =>
    match hexDigitVal a, hexDigitVal b, hexDigitVal c, hexDigitVal d with
    | some x, some y, some z, some w =>
      some (((x * 16 + y) * 16 + z) * 16 + w, rest)
    | _, _, _, _ => none
  | _ => none

/-- Parse the body of a JSON string (after the opening quote), returning
its characters and the remaining input. Models `json.loads` strict-mode
strings: raw control characters are rejected, the standard escapes and
`\uXXXX` escapes are decoded, and a high/low surrogate-escape pair is
combined into one character. A lone surrogate — which Python keeps in the
`str` but a Lean `String` cannot hold — is represented by the replacement
character; where the parse succeeds and what it consumes is faithful. Fuel
only serves termination (every step consumes at least one character). -/
def jparseStrBody : Nat → List Char → Option (List Char × List Char)
  | 0, _ => none
  | fuel + 1, cs =>
    match cs with
    | [] => none
    | c :: rest =>
      if c.toNat < 32 then none
      else if c == qChar then some ([], rest)
      else if c == bsChar then
        match rest with
        | [] => none
        | e :: rest2 =>
          if e == 'u' then
            match hex4 rest2 with
            | none => none
            | some (n, rest3) =>
              if 55296 ≤ n ∧ n ≤ 56319 then
                match rest3 with
                | b1 :: b2 :: rest4 =>
                  if b1 == bsChar && b2 == 'u' then
                    match hex4 rest4 with
                    | some (n2, rest5) =>
                      if 56320 ≤ n2 ∧ n2 ≤ 57343 then
                        (jparseStrBody fuel rest5).map (fun p =>
                          (Char.ofNat (65536 + (n - 55296) * 1024 + (n2 - 56320)) :: p.1,
                            p.2))
                      else
                        (jparseStrBody fuel rest3).map (fun p =>
                          (Char.ofNat 65533 :: p.1, p.2))
                    | none =>
                      (jparseStrBody fuel rest3).map (fun p =>
                        (Char.ofNat 65533 :: p.1, p.2))
                  else
                    (jparseStrBody fuel rest3).map (fun p =>
                      (Char.ofNat 65533 :: p.1, p.2))
                | _ =>
                  (jparseStrBody fuel rest3).map (fun p =>
                    (Char.ofNat 65533 :: p.1, p.2))
              else if 56320 ≤ n ∧ n ≤ 57343 then
                (jparseStrBody fuel rest3).map (fun p =>
                  (Char.ofNat 65533 :: p.1, p.2))
              else
                (jparseStrBody fuel rest3).map (fun p => (Char.ofNat n :: p.1, p.2))
          else
            match escChar e with
            | some ch => (jparseStrBody fuel rest2).map (fun p => (ch :: p.1, p.2))
            | none => none
      else (jparseStrBody fuel rest).map (fun p => (c :: p.1, p.2))

/-- The value of a digit run. -/
def digitsVal (ds : List Char) : Nat :=
  ds.foldl (fun acc ch => acc * 10 + (ch.toNat - 48)) 0

/-- The integer part of an RFC 8259 number: `0` alone, or a nonzero digit
followed by digits. Maximal munch as in the scanner's regex: `01` scans as
`0` with `1` left over, which then fails as extra data exactly as
`json.loads` does. -/
def jparseIntPart : List Char → Option (List Char × List Char)
  | c :: rest =>
    if c == '0' then some ([c], rest)
    else if c.isDigit then
      some (c :: rest.takeWhile (fun ch => ch.isDigit),
        rest.dropWhile (fun ch => ch.isDigit))
    else none
  | [] => none

/-- The optional fraction group `.digits`; nothing is consumed when the
group does not match. -/
def jparseFrac (cs : List Char) : List Char × List Char :=
  match cs with
  | c :: rest =>
    if c == '.' then
      let ds := rest.takeWhile (fun ch => ch.isDigit)
      if ds.isEmpty then ([], cs)
      else (ds, rest.dropWhile (fun ch => ch.isDigit))
    else ([], cs)
  | [] => ([], cs)

/-- The optional exponent group `[eE][+-]?digits`; nothing is consumed
when the group does not match. -/
def jparseExp (cs : List Char) : Option Int × List Char :=
  match cs with
  | c :: rest =>
    if c == 'e' || c == 'E' then
      match rest with
      | s :: rest2 =>
        if s == '+' || s == '-' then
          let ds := rest2.takeWhile (fun ch => ch.isDigit)
          if ds.isEmpty then (none, cs)
          else
            (some (if s == '-' then -(digitsVal ds : Int) else (digitsVal ds : Int)),
              rest2.dropWhile (fun ch => ch.isDigit))
        else
          let ds := rest.takeWhile (fun ch => ch.isDigit)
          if ds.isEmpty then (none, cs)
          else (some ((digitsVal ds : Int)), rest.dropWhile (fun ch => ch.isDigit))
      | [] => (none, cs)
    else (none, cs)
  | [] => (none, cs)

/-- A JSON number: a Python `int` when only the integer part is present, a
Python float when a fraction or exponent group follows (kept as the exact
decimal value of the literal). -/
def jparseNum (cs : List Char) : Option (JVal × List Char) :=
  let sgn : Bool × List Char :=
    match cs with
    | c :: rest => if c == '-' then (true, rest) else (false, cs)
    | [] => (false, cs)
  match jparseIntPart sgn.2 with
  | none => none
  | some (ids, r1) =>
    let fr := jparseFrac r1
    let ex := jparseExp fr.2
    match fr.1, ex.1 with
    | [], none =>
      some (.jnum ((if sgn.1 then -1 else 1) * (digitsVal ids : Int)), ex.2)
    | fds, e? =>
      some (.jfloat (.finite
        ((if sgn.1 then -1 else 1) * (digitsVal (ids ++ fds) : Int))
        ((e?.getD 0) - (fds.length : Int))), ex.2)

/-- Strip a literal keyword from the front of the input. -/
def stripLit : List Char → List Char → Option (List Char)
  | [], cs => some cs
  | _ :: _, [] => none
  | l :: ls, c :: cs => if l == c then stripLit ls cs else none

mutual
/-- Parse one JSON value (modelling `json.loads` grammar dispatch). -/
def jparseVal : Nat → List Char → Option (JVal × List Char)
  | 0, _ => none
  | fuel + 1, cs =>
    let cs := jskipWs cs
    match cs with
    | [] => none
    | c :: rest =>
      if c == lbChar then
        let cs2 := jskipWs rest
        match cs2 with
        | c2 :: rest2 =>
          if c2 == rbChar then some (JVal.jobj .onil, rest2)
          else (jparseMembers fuel cs2).map (fun p => (JVal.jobj p.1, p.2))
        | [] => none
      else if c == '[' then
        let cs2 := jskipWs rest
        match cs2 with
        | c2 :: rest2 =>
          if c2 == ']' then some (JVal.jarr .anil, rest2)
          else (jparseItems fuel cs2).map (fun p => (JVal.jarr p.1, p.2))
        | [] => none
      else if c == qChar then
        (jparseStrBody (rest.length + 1) rest).map
          (fun p => (JVal.jstr (String.mk p.1), p.2))
      else
        match stripLit "true".data cs with
        | some r => some (JVal.jbool true, r)
        | none =>
          match stripLit "false".data cs with
          | some r => some (JVal.jbool false, r)
          | none =>
            match stripLit "null".data cs with
            | some r => some (JVal.jnull, r)
            | none =>
              match stripLit "NaN".data cs with
              | some r => some (JVal.jfloat .nan, r)
              | none =>
                match stripLit "Infinity".data cs with
                | some r => some (JVal.jfloat .inf, r)
                | none =>
                  match stripLit "-Infinity".data cs with
                  | some r => some (JVal.jfloat .ninf, r)
                  | none => jparseNum cs
/-- Parse the nonempty member list of a JSON object. -/
def jparseMembers : Nat → List Char → Option (JObj × List Char)
  | 0, _ => none
  | fuel + 1, cs =>
    let cs := jskipWs cs
    match cs with
    | [] => none
    | c :: rest =>
      if c == qChar then
        match jparseStrBody (rest.length + 1) rest with
        | some (k, cs2) =>
          match jskipWs cs2 with
          | c2 :: cs3 =>
            if c2 == ':' then
              match jparseVal fuel cs3 with
              | some (v, cs4) =>
                match jskipWs cs4 with
                | c3 :: cs5 =>
                  if c3 == ',' then
                    (jparseMembers fuel cs5).map
                      (fun p => (JObj.ocons (String.mk k) v p.1, p.2))
                  else if c3 == rbChar then
                    some (JObj.ocons (String.mk k) v JObj.onil, cs5)
                  else none
                | [] => none
              | none => none
            else none
          | [] => none
        | none => none
      else none
/-- Parse the nonempty item list of a JSON array. -/
def jparseItems : Nat → List Char → Option (JArr × List Char)
  | 0, _ => none
  | fuel + 1, cs =>
    match jparseVal fuel cs with
    | some (v, cs2) =>
      match jskipWs cs2 with
      | c :: cs3 =>
        if c == ',' then
          (jparseItems fuel cs3).map (fun p => (JArr.acons v p.1, p.2))
        else if c == ']' then some (JArr.acons v JArr.anil, cs3)
        else none
      | [] => none
    | none => none
end

/-- Model of `json.loads`: parse one value and require only whitespace to
remain. -/
def jsonParse (s : String) : Option JVal :=
  match jparseVal (s.length + 1) s.data with
  | some (v, rest) => if (jskipWs rest).isEmpty then some v else none
  | none => none

/-! ### Meta-critique verdict (src/core/loop.py, `_get_meta_critique` and
`_is_critique_actionable`) -/

/-- Does `needle` occur at the start of `hay`? -/
def startsWithChars : List Char → List Char → Bool
  | [], _ => true
  | _ :: _, [] => false
  | a :: as, b :: bs => a == b && startsWithChars as bs

/-- Does `needle` occur anywhere in `hay`? Models Python's
`needle in hay` substring test (case-sensitive). -/
def containsChars : List Char → List Char → Bool
  | needle, [] => needle.isEmpty
  | needle, c :: cs => startsWithChars needle (c :: cs) || containsChars needle cs

/-- Outcome of the meta-critic `call_model` call: either an exception
(`ModelCallError`/`ValueError`/anything else — all caught identically) or
the returned response string (`call_model` always returns `str`). -/
inductive MetaCallRes where
  | fail : String → MetaCallRes
  | ok : String → MetaCallRes
  deriving DecidableEq

/-- First-match lookup of a key in a JSON object (Python `dict.get`;
objects built from JSON never carry duplicate keys in a dict). -/
def JObj.oget : JObj → String → Option JVal
  | .onil, _ => none
  | .ocons k v rest, key => if k == key then some v else JObj.oget rest key

/-- Embedding of `_get_meta_critique`: a missing meta-critic template
defaults the verdict structure to `{actionable: True}`; a raised call error
collapses it to `{actionable: False}`; a string response is `json.loads`ed
and returned as parsed — whatever shape it has — or, when it is not valid
JSON, replaced by the `"ACTIONABLE" in response` substring heuristic. -/
def getMetaCritique (hasTemplate : Bool) (res : MetaCallRes) : JVal :=
  if !hasTemplate then .jobj (.ocons "actionable" (.jbool true) .onil)
  else
    match res with
    | .fail _ => .jobj (.ocons "actionable" (.jbool false) .onil)
    | .ok s =>
      match jsonParse s with
      | some v => v
      | none =>
        .jobj (.ocons "actionable" (.jbool (containsChars "ACTIONABLE".data s.data)) .onil)

/-- Embedding of `_is_critique_actionable`: reads
`meta_critique_result.get("actionable", False)`. On a dict this returns the
field (defaulting to `False`); on any non-dict value Python raises
`AttributeError` (`.get` does not exist), modelled as `Except.error ()`. -/
def isCritiqueActionable (hasTemplate : Bool) (res : MetaCallRes) : Except Unit JVal :=
  match getMetaCritique hasTemplate res with
  | .jobj entries => .ok ((entries.oget "actionable").getD (.jbool false))
  | _ => .error ()

/-- Python truthiness of a JSON-derived value (`if not actionability`).
A float is truthy iff it is not `0.0`; for the exact-decimal model this is
`mantissa ≠ 0` (extreme literals whose IEEE-754 value rounds to `0.0` are
outside the model), and `inf`, `-inf` and `nan` are all truthy. -/
def pyTruthyJ : JVal → Bool
  | .jnull => false
  | .jbool b => b
  | .jnum n => n != 0
  | .jfloat (.finite m _) => m != 0
  | .jfloat .inf => true
  | .jfloat .ninf => true
  | .jfloat .nan => true
  | .jstr s => !s.isEmpty
  | .jarr .anil => false
  | .jarr (.acons _ _) => true
  | .jobj .onil => false
  | .jobj (.ocons _ _ _) => true

/-- The loop's view of the verdict: the truthiness of the value read by
`_is_critique_actionable`, or a propagated exception. -/
def verdictB (hasTemplate : Bool) (res : MetaCallRes) : Except Unit Bool :=
  (isCritiqueActionable hasTemplate res).map pyTruthyJ

/-- Float-bearing meta responses follow the program's paths: a bare float
literal is valid non-object JSON, so reading the verdict raises; a float
member inside an object does not disturb reading the object's
`actionable` field. -/
theorem metaVerdict_float_responses :
    isCritiqueActionable true (.ok "1.5") = .error () ∧
    isCritiqueActionable true (.ok "\x7b\"actionable\": true, \"x\": 1.5\x7d") =
      .ok (.jbool true) ∧
    jsonParse "1.5" = some (.jfloat (.finite 15 (-1))) ∧
    jsonParse "NaN" = some (.jfloat .nan) :=
  ⟨rfl, rfl, rfl, rfl⟩

/-! ### Claim C4 (meta-critique fail-closed) -/

/-- Lookup of a key in a config dict (association list without duplicate
keys; `dict.get` returns `None` when absent). -/
def dget (d : List (String × String)) (k : String) : Option String :=
  match d.find? (fun p => p.1 == k) with
  | some p => some p.2
  | none => none

/-- Python truthiness of an optional string: `None` and `""` are falsy
(`if not model_to_use`). -/
def pyFalsyStr : Option String → Bool
  | none => true
  | some s => s.isEmpty

/-- Fuel-based worker for `pyReplace` (case-sensitive replace-all). -/
def replChars : Nat → List Char → List Char → List Char → List Char
  | 0, _, _, text => text
  | fuel + 1, pat, repl, text =>
    match text with
    | [] => if pat.isEmpty then repl else []
    | c :: cs =>
      if pat.isEmpty then repl ++ c :: replChars fuel [] repl cs
      else if startsWithChars pat text then
        repl ++ replChars fuel pat repl (text.drop pat.length)
      else c :: replChars fuel pat repl cs

/-- Python `str.replace(old, new)`: replace every (leftmost,
non-overlapping) occurrence, case-sensitively. -/
def pyReplace (s old new : String) : String :=
  String.mk (replChars (s.length + 1) old.data new.data s.data)

/-- Embedding of steps 1–2 of `call_model`: an explicit model name wins
when truthy; else, a role whose `.txt`-stripped name is a key of the roles
section resolves to that role's `model` entry (which may be absent); else
the `default_model` of the effective configuration. A falsy result means
`ValueError("No model name provided or configured.")`. -/
def resolveModel (modelName? role? : Option String)
    (rolesCfg : List (String × List (String × String)))
    (effective : List (String × String)) : Option String :=
  let m1 :=
    if pyFalsyStr modelName? then
      let roleName := match role? with
        | some r => pyReplace r ".txt" ""
        | none => ""
      if !roleName.isEmpty && rolesCfg.any (fun p => p.1 == roleName) then
        match rolesCfg.find? (fun p => p.1 == roleName) with
        | some p => dget p.2 "model"
        | none => none
      else dget effective "default_model"
    else modelName?
  if pyFalsyStr m1 then none else m1

/-- Errors surfaced by `call_model`: the `ValueError` for an unresolvable
model, or a `ModelAPIError` message. -/
inductive CallErr where
  | valueError : CallErr
  | apiError : String → CallErr
  deriving DecidableEq

/-- Embedding of `call_model` (steps 3–6): dry run and `mock` prefixes
short-circuit before any backend interaction; otherwise the primary model
is called, and on failure exactly one distinct configured fallback is
tried. The second component records the backend invocations made (model
names, in order). -/
def callModel (backend : String → Except String String)
    (modelName? role? : Option String)
    (rolesCfg : List (String × List (String × String)))
    (effective : List (String × String)) (dryRun : Bool) :
    Except CallErr String × List String :=
  match resolveModel modelName? role? rolesCfg effective with
  | none => (.error .valueError, [])
  | some m =>
    if dryRun then
      (.ok ("DRY_RUN_RESPONSE: This is a mocked response for model " ++ m ++ "."), [])
    else if startsWithChars "mock".data m.data then
      (.ok ("MOCK_RESPONSE: This is a mocked response for model " ++ m ++ "."), [])
    else
      match backend m with
      | .ok t => (.ok t, [m])
      | .error _ =>
        match dget effective "fallback_model" with
        | none =>
          (.error (.apiError
            ("Model " ++ m ++ " failed and no distinct fallback is available.")), [m])
        | some f =>
          if f == "" || f == m then
            (.error (.apiError
              ("Model " ++ m ++ " failed and no distinct fallback is available.")), [m])
          else
            match backend f with
            | .ok t => (.ok t, [m, f])
            | .error _ =>
              (.error (.apiError ("Fallback model " ++ f ++ " also failed.")), [m, f])

/-- At most two backend invocations ever happen in one `call_model`. -/
theorem callModel_calls_le_two (backend : String → Except String String)
    (modelName? role? : Option String)
    (rolesCfg : List (String × List (String × String)))
    (effective : List (String × String)) (dryRun : Bool) :
    (callModel backend modelName? role? rolesCfg effective dryRun).2.length ≤ 2 := by
  unfold callModel
  cases resolveModel modelName? role? rolesCfg effective with
  | none => simp
  | some m =>
    cases dryRun with
    | true => simp
    | false =>
      simp only [Bool.false_eq_true, if_false]
      cases startsWithChars "mock".data m.data with
      | true => simp
      | false =>
        simp only [Bool.false_eq_true, if_false]
        cases backend m with
        | ok t => simp
        | error e =>
          cases dget effective "fallback_model" with
          | none => simp
          | some f =>
            by_cases hf : f = "" ∨ f = m
            · simp [hf]
            · cases hb : backend f <;> simp [hf, hb]

/-- Needles occur at the front of themselves plus any suffix. -/
theorem startsWithChars_self_append (needle rest : List Char) :
    startsWithChars needle (needle ++ rest) = true := by
  induction needle with
  | nil => simp [startsWithChars]
  | cons a as ih => simp [startsWithChars, ih]

/-- A list occurs as a substring of any surrounding concatenation. -/
theorem containsChars_append (needle front back : List Char) :
    containsChars needle (front ++ needle ++ back) = true := by
  induction front with
  | nil =>
    cases needle with
    | nil => cases back <;> simp [containsChars, startsWithChars]
    | cons a as =>
      simp only [List.nil_append, List.cons_append]
      rw [containsChars]
      have hs := startsWithChars_self_append (a :: as) back
      simp only [List.cons_append] at hs
      simp [hs]
  | cons c cs ih =>
    have hshift : (c :: cs) ++ needle ++ back = c :: (cs ++ needle ++ back) := by simp
    rw [hshift, containsChars]
    simp only [Bool.or_eq_true]
    exact Or.inr (by simpa using ih)

/-! ### Claims C5 and C9 (model router) -/

/-- C5: on a primary failure (for a resolved, non-mock model, not in dry
run), exactly one fallback attempt is made and only when a configured
fallback exists, is truthy, and differs from the failed model; otherwise
the call fails permanently at once with a backend error and only the
primary was invoked; a successful fallback's text is returned with no
error; a failed fallback fails permanently; and no execution ever makes
more than two backend calls. -/
theorem c5_fallback_policy (backend : String → Except String String)
    (modelName? role? : Option String)
    (rolesCfg : List (String × List (String × String)))
    (effective : List (String × String)) (m : String) (e : String)
    (hm : resolveModel modelName? role? rolesCfg effective = some m)
    (hmock : startsWithChars "mock".data m.data = false)
    (hfail : backend m = .error e) :
    ((dget effective "fallback_model" = none ∨
        dget effective "fallback_model" = some "" ∨
        dget effective "fallback_model" = some m) →
      callModel backend modelName? role? rolesCfg effective false =
        (.error (.apiError
          ("Model " ++ m ++ " failed and no distinct fallback is available.")), [m])) ∧
    (∀ f, dget effective "fallback_model" = some f → f ≠ "" → f ≠ m →
      (∀ t, backend f = .ok t →
        callModel backend modelName? role? rolesCfg effective false = (.ok t, [m, f])) ∧
      (∀ e2, backend f = .error e2 →
        callModel backend modelName? role? rolesCfg effective false =
          (.error (.apiError ("Fallback model " ++ f ++ " also failed.")), [m, f]))) ∧
    (∀ (backend2 : String → Except String String) modelName2 role2 rolesCfg2 effective2 dryRun2,
      (callModel backend2 modelName2 role2 rolesCfg2 effective2 dryRun2).2.length ≤ 2) := by
  refine ⟨?_, ?_, fun b2 mn2 r2 rc2 eff2 d2 => callModel_calls_le_two b2 mn2 r2 rc2 eff2 d2⟩
  · intro hfb
    rcases hfb with hfb | hfb | hfb <;>
      simp [callModel, hm, hmock, hfail, hfb]
  · intro f hfb hne hnm
    constructor
    · intro t hok
      simp [callModel, hm, hmock, hfail, hfb, hne, hnm, hok]
    · intro e2 herr
      simp [callModel, hm, hmock, hfail, hfb, hne, hnm, herr]

/-- C5 witness: primary model `"primary"` fails, the configured fallback
`"backup"` succeeds, and the call returns the fallback's text after
exactly the two calls primary-then-fallback. -/
theorem c5_fallback_policy_witness :
    callModel
        (fun name => if name == "backup" then .ok "fallback text" else .error "down")
        (some "primary") none [] [("fallback_model", "backup")] false =
      (.ok "fallback text", ["primary", "backup"]) :=
  ((c5_fallback_policy
      (fun name => if name == "backup" then .ok "fallback text" else .error "down")
      (some "primary") none [] [("fallback_model", "backup")] "primary" "down"
      rfl rfl rfl).2.1 "backup" rfl (by decide) (by decide)).1 "fallback text" rfl

/-- C9: with `dry_run = true` and a resolvable model name, the router makes
no backend invocation and returns the fixed dry-run marker, which contains
the resolved model name as a substring. -/
theorem c9_dry_run_marker (backend : String → Except String String)
    (modelName? role? : Option String)
    (rolesCfg : List (String × List (String × String)))
    (effective : List (String × String)) (m : String)
    (hm : resolveModel modelName? role? rolesCfg effective = some m) :
    callModel backend modelName? role? rolesCfg effective true =
      (.ok ("DRY_RUN_RESPONSE: This is a mocked response for model " ++ m ++ "."), []) ∧
    containsChars m.data
      ("DRY_RUN_RESPONSE: This is a mocked response for model " ++ m ++ ".").data = true := by
  constructor
  · simp [callModel, hm]
  · have h1 : ("DRY_RUN_RESPONSE: This is a mocked response for model " ++ m ++ ".").data =
        "DRY_RUN_RESPONSE: This is a mocked response for model ".data ++ m.data ++ ".".data := by
      rw [String.data_append, String.data_append]
    rw [h1]
    exact containsChars_append m.data
      "DRY_RUN_RESPONSE: This is a mocked response for model ".data ".".data

/-- C9 witness: a dry-run call for the critic role (resolving through the
roles section to `"gemini-1.5-pro"`) returns the marker embedding that
model name and performs no backend call, even with an always-failing
backend. -/
theorem c9_dry_run_marker_witness :
    callModel (fun _ => .error "backend must not be called")
        none (some "critic") [("critic", [("model", "gemini-1.5-pro")])] [] true =
      (.ok ("DRY_RUN_RESPONSE: This is a mocked response for model gemini-1.5-pro."), []) ∧
    containsChars "gemini-1.5-pro".data
      "DRY_RUN_RESPONSE: This is a mocked response for model gemini-1.5-pro.".data = true :=
  c9_dry_run_marker (fun _ => .error "backend must not be called")
    none (some "critic") [("critic", [("model", "gemini-1.5-pro")])] [] "gemini-1.5-pro" rfl

/-! ### Critique fan-out/fan-in (src/core/loop.py, `_critique`)

`asyncio.gather` starts one task per configured critic role and delivers
each result into the slot of its argument position, whatever order the
tasks complete in. The completion order is modelled as an arbitrary list of
`(position, result)` pairs that is a permutation of the positionally
indexed task results; `gatherResults` reads the slots back in position
order, exactly as `gather` returns them. -/

/-- Read back slots `i, i+1, …, i+n-1` from the completed pairs. -/
def collectSlots (completed : List (Nat × String)) : Nat → Nat → Option (List String)
  | _, 0 => some []
  | i, n + 1 =>
    match completed.find? (fun p => p.1 == i) with
    | some p => (collectSlots completed (i + 1) n).map (fun l => p.2 :: l)
    | none => none

/-- Results of `asyncio.gather` over `n` tasks whose completions are the
pairs `completed`: slot values in position order. -/
def gatherResults (completed : List (Nat × String)) (n : Nat) : Option (List String) :=
  collectSlots completed 0 n

/-- The optional strategy value, as the two shapes `_critique` inspects
(`isinstance(..., list)` and `isinstance(..., dict)` with a `"roles"` key);
a strategy dict is modelled by its entries that carry role lists. -/
inductive StratVal where
  | slist : List String → StratVal
  | sdict : List (String × List String) → StratVal

/-- Python truthiness of `self.strategy` (`None`, `[]` and an empty dict
are falsy). -/
def stratTruthy : Option StratVal → Bool
  | none => false
  | some (.slist l) => !l.isEmpty
  | some (.sdict e) => !e.isEmpty

/-- Embedding of the role-resolution ladder of `_critique`: a truthy
strategy contributes its roles with `.txt` appended (a dict strategy
without a `"roles"` key leaves the list empty); else a non-empty
`multi_critic_roles` list; else a truthy default critic role file; else
`ValueError("No critic role specified in the configuration.")`. -/
def rolesToUse (strat : Option StratVal) (multi : List String)
    (deflt : Option String) : Except Unit (List String) :=
  if stratTruthy strat then
    match strat with
    | some (.slist l) => .ok (l.map (fun r => r ++ ".txt"))
    | some (.sdict e) =>
      match e.find? (fun p => p.1 == "roles") with
      | some p => .ok (p.2.map (fun r => r ++ ".txt"))
      | none => .ok []
    | none => .ok []
  else if !multi.isEmpty then .ok multi
  else
    match deflt with
    | some d => if d.isEmpty then .error () else .ok [d]
    | none => .error ()

/-- Fan-in of `_critique`: gather the per-role critiques (the deterministic
per-role result is `f role_file`) and join them with a blank line
(`"\n\n".join(critiques)`). -/
def critiqueFanIn (roles : List String)
    (completed : List (Nat × String)) : Option String :=
  (gatherResults completed roles.length).map
    (fun critiques => String.intercalate "\n\n" critiques)

/-- Two entries of a list with no duplicate keys that share a key are the
same entry. -/
theorem keyUnique {l : List (Nat × String)} (hnd : (l.map Prod.fst).Nodup)
    {a b : Nat × String} (ha : a ∈ l) (hb : b ∈ l) (hk : a.1 = b.1) : a = b := by
  induction l with
  | nil => cases ha
  | cons x xs ih =>
    rw [List.map_cons, List.nodup_cons] at hnd
    rcases List.mem_cons.mp ha with rfl | ha2 <;>
      rcases List.mem_cons.mp hb with rfl | hb2
    · rfl
    · exact absurd (hk ▸ List.mem_map_of_mem Prod.fst hb2) hnd.1
    · exact absurd (hk ▸ List.mem_map_of_mem Prod.fst ha2) hnd.1
    · exact ih hnd.2 ha2 hb2

/-- `find?` by key is invariant under permutation when keys are unique. -/
theorem find_eq_of_perm {l₁ l₂ : List (Nat × String)} (h : l₁.Perm l₂)
    (hnd : (l₂.map Prod.fst).Nodup) (i : Nat) :
    l₁.find? (fun p => p.1 == i) = l₂.find? (fun p => p.1 == i) := by
  cases h2 : l₂.find? (fun p => p.1 == i) with
  | none =>
    apply List.find?_eq_none.mpr
    intro x hx
    exact List.find?_eq_none.mp h2 x (h.mem_iff.mp hx)
  | some x =>
    have hx2 : x ∈ l₂ := List.mem_of_find?_eq_some h2
    have ex : x.1 = i := by simpa using List.find?_some h2
    cases h1 : l₁.find? (fun p => p.1 == i) with
    | none =>
      have hnone := List.find?_eq_none.mp h1 x (h.mem_iff.mpr hx2)
      simp [ex] at hnone
    | some y =>
      have hy1 : y ∈ l₁ := List.mem_of_find?_eq_some h1
      have ey : y.1 = i := by simpa using List.find?_some h1
      rw [keyUnique hnd (h.mem_iff.mp hy1) hx2 (by rw [ex, ey])]

/-- `collectSlots` only looks the completed pairs up through `find?`. -/
theorem collectSlots_congr {l₁ l₂ : List (Nat × String)}
    (hf : ∀ j, l₁.find? (fun p => p.1 == j) = l₂.find? (fun p => p.1 == j)) :
    ∀ (n i : Nat), collectSlots l₁ i n = collectSlots l₂ i n := by
  intro n
  induction n with
  | zero => intro i; rfl
  | succ n ih =>
    intro i
    rw [collectSlots, collectSlots, hf i, ih (i + 1)]

/-- Collecting the slots of the positionally indexed results themselves
returns the results in order. -/
theorem collectSlots_enumFrom :
    ∀ (ts : List String) (s : Nat), collectSlots (List.enumFrom s ts) s ts.length = some ts := by
  intro ts
  induction ts with
  | nil => intro s; rfl
  | cons t ts ih =>
    intro s
    rw [List.length_cons, collectSlots]
    have hhead : (List.enumFrom s (t :: ts)).find? (fun p => p.1 == s) = some (s, t) := by
      simp [List.enumFrom, List.find?]
    rw [hhead]
    have htail : collectSlots (List.enumFrom s (t :: ts)) (s + 1) ts.length =
        collectSlots (List.enumFrom (s + 1) ts) (s + 1) ts.length := by
      have hstep : ∀ (n i : Nat), s < i →
          collectSlots (List.enumFrom s (t :: ts)) i n =
            collectSlots (List.enumFrom (s + 1) ts) i n := by
        intro n
        induction n with
        | zero => intro i _; rfl
        | succ n ihn =>
          intro i hi
          have hfind : (List.enumFrom s (t :: ts)).find? (fun p => p.1 == i) =
              (List.enumFrom (s + 1) ts).find? (fun p => p.1 == i) := by
            have hne : (s == i) = false := by
              simp [Nat.ne_of_lt hi]
            simp [List.enumFrom, List.find?, hne]
          rw [collectSlots, collectSlots, hfind, ihn (i + 1) (Nat.lt_succ_of_lt hi)]
      exact hstep ts.length (s + 1) (Nat.lt_succ_self s)
    rw [htail, ih (s + 1)]
    rfl

/-- Gathering any completion order that is a permutation of the positional
results yields the results in position order. -/
theorem gatherResults_perm (ts : List String) (completed : List (Nat × String))
    (h : completed.Perm (List.enumFrom 0 ts)) :
    gatherResults completed ts.length = some ts := by
  have hnd : ((List.enumFrom 0 ts).map Prod.fst).Nodup := by
    rw [List.enumFrom_map_fst]
    simp [List.nodup_range']
  have hf := fun j => find_eq_of_perm h hnd j
  unfold gatherResults
  rw [collectSlots_congr hf ts.length 0]
  exact collectSlots_enumFrom ts 0

/-! ### Claim C8 (fan-in ordering) -/

/-- C8: for any resolved critic role list, the round's critique text is the
per-role critiques joined with a blank line in configured role order,
whatever order the concurrent per-role calls complete in (any permutation
of the positionally indexed results). -/
theorem c8_fanin_configured_order (strat : Option StratVal) (multi : List String)
    (deflt : Option String) (roles : List String) (f : String → String)
    (completed : List (Nat × String))
    (hroles : rolesToUse strat multi deflt = .ok roles)
    (hperm : completed.Perm (List.enumFrom 0 (roles.map f))) :
    critiqueFanIn roles completed =
      some (String.intercalate "\n\n" (roles.map f)) := by
  unfold critiqueFanIn
  rw [show roles.length = (roles.map f).length from (List.length_map roles f).symm,
    gatherResults_perm (roles.map f) completed hperm]
  rfl

/-- C8 witness: two configured critic roles whose calls complete in
reversed order still join in configuration order. -/
theorem c8_fanin_configured_order_witness :
    critiqueFanIn ["clarity.txt", "rigor.txt"]
        [(1, "critique from rigor.txt"), (0, "critique from clarity.txt")] =
      some ("critique from clarity.txt\n\ncritique from rigor.txt") := by
  have h := c8_fanin_configured_order none ["clarity.txt", "rigor.txt"] none
    ["clarity.txt", "rigor.txt"] (fun r => "critique from " ++ r)
    [(1, "critique from rigor.txt"), (0, "critique from clarity.txt")]
    rfl (List.Perm.swap (0, "critique from clarity.txt") (1, "critique from rigor.txt") [])
  rw [h]
  rfl

/-! ### Loop controller (src/core/loop.py, `CritiqueRefineLoop`)

The loop's model calls are abstracted into an environment: the outcome of
the generator call, and the outcomes of the per-round critique, refine and
meta-critic calls (as functions of the round number and the texts they are
given, since `call_model` is deterministic for a fixed backend). Exceptions
are explicit `PyErr` values. The structured logger appends one line per
`log_run` call; the model counts those calls (`logWrites`). No strategy is
configured in the runs modelled here, so `_run_brainstormer_loop` is the
identity passthrough and `_critique` resolves its roles from the run
configuration. -/

/-- The exceptions distinguished by the loop's handlers. -/
inductive PyErr where
  | templateNotFound : String → PyErr
  | timeout : PyErr
  | valueError : String → PyErr
  | modelApi : String → PyErr
  | generic : String → PyErr
  deriving DecidableEq

/-- Python `str(e)` for a loop exception (`str(asyncio.TimeoutError())` is
empty). -/
def errMsg : PyErr → String
  | .templateNotFound m => m
  | .timeout => ""
  | .valueError m => m
  | .modelApi m => m
  | .generic m => m

/-- Outcomes of the model interactions of one run: the generator call, and
the per-round critique (round, current text), refine (round, current text,
critique) and meta-critic (round, critique text) calls. -/
structure Env where
  genResult : Except PyErr String
  critiqueF : Nat → String → Except PyErr String
  refineF : Nat → String → String → Except PyErr String
  metaRes : Nat → String → MetaCallRes

/-- The mutable portion of `run_log` that `_run_critique_refine_loop`
builds: critique records, refinement records (as (round, text) pairs),
`reason_for_stopping` and the current text. -/
structure LoopState where
  critiques : List (Nat × String)
  refinements : List (Nat × String)
  reason : String
  currentText : String
  deriving DecidableEq

/-- Result of `_run_critique_refine_loop`: a normal return of the current
text, or a re-raised exception. -/
inductive LoopRes where
  | done : LoopState → LoopRes
  | raised : LoopState → PyErr → LoopRes
  deriving DecidableEq

/-- The per-round exception ladder of `_run_critique_refine_loop`:
`asyncio.TimeoutError` stops with a timeout reason; `TemplateNotFoundError`
and `ValueError` are re-raised; any other exception stops with the error
recorded. -/
def roundErr (k : Nat) (st : LoopState) : PyErr → LoopRes
  | .timeout => .done { st with reason := "Timeout in round " ++ toString k }
  | .templateNotFound m => .raised st (.templateNotFound m)
  | .valueError m => .raised st (.valueError m)
  | .modelApi m => .done { st with reason := "Error in round " ++ toString k ++ ": " ++ m }
  | .generic m => .done { st with reason := "Error in round " ++ toString k ++ ": " ++ m }

/-- Embedding of `_run_critique_refine_loop`: `for i in range(max_rounds)`
with the critique record appended before the optional meta gate, the
non-actionable early return, the refinement record appended after a
successful refine, and the exception ladder around the round body. A
verdict read that raises (see `isCritiqueActionable`) is an
`AttributeError`, handled by the generic arm of the ladder. -/
def runCR (env : Env) (disableMeta hasTemplate : Bool) :
    Nat → Nat → LoopState → LoopRes
  | 0, _, st => .done st
  | n + 1, i, st =>
    match env.critiqueF (i + 1) st.currentText with
    | .error e => roundErr (i + 1) st e
    | .ok ct =>
      let st1 : LoopState :=
        { st with critiques := st.critiques ++ [(i + 1, ct)] }
      if disableMeta then
        match env.refineF (i + 1) st1.currentText ct with
        | .error e => roundErr (i + 1) st1 e
        | .ok rt =>
          runCR env disableMeta hasTemplate n (i + 1)
            { st1 with refinements := st1.refinements ++ [(i + 1, rt)], currentText := rt }
      else
        match verdictB hasTemplate (env.metaRes (i + 1) ct) with
        | .error _ =>
          roundErr (i + 1) st1 (.generic "AttributeError reading the meta-critique verdict")
        | .ok b =>
          if b then
            match env.refineF (i + 1) st1.currentText ct with
            | .error e => roundErr (i + 1) st1 e
            | .ok rt =>
              runCR env disableMeta hasTemplate n (i + 1)
                { st1 with refinements := st1.refinements ++ [(i + 1, rt)], currentText := rt }
          else
            .done { st1 with reason :=
              "Non-actionable critique received in round " ++ toString (i + 1) ++ "." }

/-- Result of `_generate`: the initial text, the `model_used` log field and
the number of generator calls made. -/
structure GenOut where
  text : String
  modelUsed : String
  genCalls : Nat
  deriving DecidableEq

/-- Embedding of `_generate`: `initial_content_for_review or await
call_model(...)` uses the supplied content only when truthy (non-empty),
while `model_used` distinguishes on `is None` — so empty supplied content
calls the generator yet logs "N/A (provided content for review)". -/
def generateStep (generatorModel : String) (content? : Option String)
    (genResult : Except PyErr String) : Except PyErr GenOut :=
  match content? with
  | some c =>
    if c == "" then
      genResult.map (fun g => ⟨g, "N/A (provided content for review)", 1⟩)
    else .ok ⟨c, "N/A (provided content for review)", 0⟩
  | none => genResult.map (fun g => ⟨g, generatorModel, 1⟩)

/-- The per-run configuration fields `run` reads. -/
structure LoopCfg where
  maxRounds : Nat
  disableMetaCritic : Bool
  hasMetaTemplate : Bool
  generatorModel : String
  contentForReview : Option String

deriving instance DecidableEq for Except

/-- Observable outcome of one `run` call: the persisted `run_log` fields,
the number of `Logger.log_run` calls made, the returned value or raised
exception, and the number of generator calls. -/
structure RunOut where
  critiques : List (Nat × String)
  refinements : List (Nat × String)
  reason : String
  finalOutput : String
  initialModelUsed : Option String
  logWrites : Nat
  result : Except PyErr String
  genCalls : Nat
  deriving DecidableEq

/-- `reason_for_stopping` written by `run`'s exception handlers
(`f"Error: {e}"` for `TemplateNotFoundError`/`asyncio.TimeoutError`, and
the critique/refine-loop error message — whose wall-clock timestamp prefix
is not modelled — for every other exception). -/
def reasonForRaised : PyErr → String
  | .templateNotFound m => "Error: " ++ m
  | .timeout => "Error: "
  | e => "Error during critique/refine loop: " ++ errMsg e

/-- Number of `log_run` calls on the way out of `run` with a raised
exception: the `except (TemplateNotFoundError, asyncio.TimeoutError)`
handler calls `log_run` itself and the `finally` block calls it again;
every other path logs only in `finally`. -/
def writesForRaised : PyErr → Nat
  | .templateNotFound _ => 2
  | .timeout => 2
  | _ => 1

/-- Embedding of `run`: generate (exceptions propagate to the handlers),
brainstorm passthrough, the critique/refine loop, the default
`"Max rounds (N) reached."` reason when none was set, and the
handler/`finally` logging behaviour. -/
def runModel (env : Env) (cfg : LoopCfg) : RunOut :=
  match generateStep cfg.generatorModel cfg.contentForReview env.genResult with
  | .error e =>
    { critiques := [], refinements := [], reason := reasonForRaised e,
      finalOutput := "", initialModelUsed := none,
      logWrites := writesForRaised e, result := .error e, genCalls := 1 }
  | .ok g =>
    match runCR env cfg.disableMetaCritic cfg.hasMetaTemplate cfg.maxRounds 0
        ⟨[], [], "", g.text⟩ with
    | .done st =>
      { critiques := st.critiques, refinements := st.refinements,
        reason := if st.reason == "" then
            "Max rounds (" ++ toString cfg.maxRounds ++ ") reached."
          else st.reason,
        finalOutput := st.currentText, initialModelUsed := some g.modelUsed,
        logWrites := 1, result := .ok st.currentText, genCalls := g.genCalls }
    | .raised st e =>
      { critiques := st.critiques, refinements := st.refinements,
        reason := reasonForRaised e, finalOutput := "",
        initialModelUsed := some g.modelUsed,
        logWrites := writesForRaised e, result := .error e, genCalls := g.genCalls }

/-- An environment in which every model call succeeds: the generator
returns `g`, critiques and refinements are computed by `c` and `r`, and the
meta-critic responds with the string `m i` in round `i`. -/
def okEnv (g : String) (c : Nat → String → String)
    (r : Nat → String → String → String) (m : Nat → String) : Env :=
  { genResult := .ok g
    critiqueF := fun i t => .ok (c i t)
    refineF := fun i t q => .ok (r i t q)
    metaRes := fun i _ => .ok (m i) }

/-- The current text after rounds `i+1 … i+n` of successful
critique/refine, starting from `t`. -/
def okTextAfter (c : Nat → String → String) (r : Nat → String → String → String) :
    String → Nat → Nat → String
  | t, _, 0 => t
  | t, i, n + 1 => okTextAfter c r (r (i + 1) t (c (i + 1) t)) (i + 1) n

/-- The critique records appended by rounds `i+1 … i+n` of successful
critique/refine, starting from `t`. -/
def okCrits (c : Nat → String → String) (r : Nat → String → String → String) :
    String → Nat → Nat → List (Nat × String)
  | _, _, 0 => []
  | t, i, n + 1 =>
    (i + 1, c (i + 1) t) :: okCrits c r (r (i + 1) t (c (i + 1) t)) (i + 1) n

/-- The refinement records appended by rounds `i+1 … i+n` of successful
critique/refine, starting from `t`. -/
def okRefs (c : Nat → String → String) (r : Nat → String → String → String) :
    String → Nat → Nat → List (Nat × String)
  | _, _, 0 => []
  | t, i, n + 1 =>
    (i + 1, r (i + 1) t (c (i + 1) t)) :: okRefs c r (r (i + 1) t (c (i + 1) t)) (i + 1) n

theorem okCrits_length (c : Nat → String → String)
    (r : Nat → String → String → String) :
    ∀ (n : Nat) (t : String) (i : Nat), (okCrits c r t i n).length = n := by
  intro n
  induction n with
  | zero => intro t i; rfl
  | succ n ih => intro t i; simp [okCrits, ih]

theorem okRefs_length (c : Nat → String → String)
    (r : Nat → String → String → String) :
    ∀ (n : Nat) (t : String) (i : Nat), (okRefs c r t i n).length = n := by
  intro n
  induction n with
  | zero => intro t i; rfl
  | succ n ih => intro t i; simp [okRefs, ih]

theorem okCrits_map_fst (c : Nat → String → String)
    (r : Nat → String → String → String) :
    ∀ (n : Nat) (t : String) (i : Nat),
      (okCrits c r t i n).map Prod.fst = List.range' (i + 1) n := by
  intro n
  induction n with
  | zero => intro t i; rfl
  | succ n ih => intro t i; simp [okCrits, List.range'_succ, ih]

theorem okRefs_map_fst (c : Nat → String → String)
    (r : Nat → String → String → String) :
    ∀ (n : Nat) (t : String) (i : Nat),
      (okRefs c r t i n).map Prod.fst = List.range' (i + 1) n := by
  intro n
  induction n with
  | zero => intro t i; rfl
  | succ n ih => intro t i; simp [okRefs, List.range'_succ, ih]

/-- With the meta-critic disabled and all calls succeeding, the loop runs
all rounds, appending the expected records and never raising. -/
theorem runCR_disabled_ok (g : String) (c : Nat → String → String)
    (r : Nat → String → String → String) (m : Nat → String) (ht : Bool) :
    ∀ (n i : Nat) (cr rf : List (Nat × String)) (rs tx : String),
      runCR (okEnv g c r m) true ht n i ⟨cr, rf, rs, tx⟩ =
        .done ⟨cr ++ okCrits c r tx i n, rf ++ okRefs c r tx i n, rs,
          okTextAfter c r tx i n⟩ := by
  intro n
  induction n with
  | zero => intro i cr rf rs tx; simp [runCR, okCrits, okRefs, okTextAfter]
  | succ n ih =>
    intro i cr rf rs tx
    rw [runCR]
    have hstep := ih (i + 1) (cr ++ [(i + 1, c (i + 1) tx)])
      (rf ++ [(i + 1, r (i + 1) tx (c (i + 1) tx))]) rs
      (r (i + 1) tx (c (i + 1) tx))
    simp only [okEnv] at hstep ⊢
    rw [if_pos trivial, hstep]
    simp [okCrits, okRefs, okTextAfter]

/-- With the meta gate enabled, actionable verdicts in rounds
`i+1 … i+j` and a non-actionable verdict in round `i+j+1` (all calls
succeeding) stop the loop there with `j+1` critiques and `j` refinements. -/
theorem runCR_meta_stop (g : String) (c : Nat → String → String)
    (r : Nat → String → String → String) (m : Nat → String) :
    ∀ (j n i : Nat) (cr rf : List (Nat × String)) (rs tx : String),
      (∀ a, i < a → a ≤ i + j → verdictB true (.ok (m a)) = .ok true) →
      verdictB true (.ok (m (i + j + 1))) = .ok false →
      j < n →
      runCR (okEnv g c r m) false true n i ⟨cr, rf, rs, tx⟩ =
        .done ⟨cr ++ okCrits c r tx i (j + 1), rf ++ okRefs c r tx i j,
          "Non-actionable critique received in round " ++ toString (i + j + 1) ++ ".",
          okTextAfter c r tx i j⟩ := by
  intro j
  induction j with
  | zero =>
    intro n i cr rf rs tx hTrue hFalse hn
    match n, hn with
    | n + 1, _ =>
      rw [runCR]
      simp only [okEnv, Bool.false_eq_true, if_false]
      simp only [Nat.add_zero] at hFalse
      rw [hFalse]
      simp [okCrits, okRefs, okTextAfter]
  | succ j ihj =>
    intro n i cr rf rs tx hTrue hFalse hn
    match n, hn with
    | n + 1, hn =>
      rw [runCR]
      simp only [okEnv, Bool.false_eq_true, if_false]
      have hT1 : verdictB true (.ok (m (i + 1))) = .ok true :=
        hTrue (i + 1) (Nat.lt_succ_self i) (by omega)
      have hidx : i + (j + 1) + 1 = (i + 1) + j + 1 := by omega
      rw [hidx] at hFalse
      have hstep := ihj n (i + 1) (cr ++ [(i + 1, c (i + 1) tx)])
        (rf ++ [(i + 1, r (i + 1) tx (c (i + 1) tx))]) rs
        (r (i + 1) tx (c (i + 1) tx))
        (fun a ha1 ha2 => hTrue a (by omega) (by omega)) hFalse (by omega)
      simp only [okEnv] at hstep
      rw [hT1, hidx]
      simp [hstep, okCrits, okRefs, okTextAfter]

/-- A string starting with the literal `"Non-actionable critique received
in round "` is not empty. -/
theorem nonActionableReason_ne_empty (k : Nat) :
    ("Non-actionable critique received in round " ++ toString k ++ ".") ≠ "" := by
  intro hcontr
  have hdata := congrArg String.data hcontr
  rw [String.data_append, String.data_append] at hdata
  have h2 := (List.append_eq_nil.mp hdata).2
  simp at h2

/-! ### Claims C1, C2, C3 and C6 (loop controller) -/

/-- C1 counterexample: when the first critique raises
`TemplateNotFoundError` (with `max_rounds = 1`, meta disabled and content
supplied for review), the run log entry is appended twice — once by the
`except (TemplateNotFoundError, asyncio.TimeoutError)` handler and once by
the `finally` block — not exactly once as claimed. -/
theorem c1_single_flush_counterexample :
    (runModel
      { genResult := .ok "draft"
        critiqueF := fun _ _ => .error (.templateNotFound "Template not found: critic.txt")
        refineF := fun _ t _ => .ok t
        metaRes := fun _ _ => .ok "" }
      ⟨1, true, false, "gemini", some "content"⟩).logWrites = 2 := rfl

/-- C1 (amended): the run log is always appended at least once at the end
of a run attempt; it is appended exactly once on every path — normal
completion, early stop, or a propagated failure — except when the
propagated exception is a `TemplateNotFoundError` or
`asyncio.TimeoutError`, in which case it is appended twice (by the
dedicated handler and by `finally`). -/
theorem c1_log_flush_amended (env : Env) (cfg : LoopCfg) :
    (runModel env cfg).logWrites =
      (match (runModel env cfg).result with
        | .error (.templateNotFound _) => 2
        | .error .timeout => 2
        | _ => 1) ∧
    1 ≤ (runModel env cfg).logWrites := by
  unfold runModel
  cases hg : generateStep cfg.generatorModel cfg.contentForReview env.genResult with
  | error e => cases e <;> simp [hg, writesForRaised]
  | ok g =>
    cases hr : runCR env cfg.disableMetaCritic cfg.hasMetaTemplate cfg.maxRounds 0
        ⟨[], [], "", g.text⟩ with
    | done st => simp [hg, hr]
    | raised st e => cases e <;> simp [hg, hr, writesForRaised]

/-- C1 witness: a run whose single critique raises a generic model error
ends the round early, returns normally, and flushes the log exactly once. -/
theorem c1_log_flush_witness :
    (runModel
      { genResult := .ok "draft"
        critiqueF := fun _ _ => .error (.modelApi "Gemini API call failed for gemini")
        refineF := fun _ t _ => .ok t
        metaRes := fun _ _ => .ok "" }
      ⟨1, true, false, "gemini", none⟩).logWrites =
      (match (runModel
        { genResult := .ok "draft"
          critiqueF := fun _ _ => .error (.modelApi "Gemini API call failed for gemini")
          refineF := fun _ t _ => .ok t
          metaRes := fun _ _ => .ok "" }
        ⟨1, true, false, "gemini", none⟩).result with
        | .error (.templateNotFound _) => 2
        | .error .timeout => 2
        | _ => 1) ∧
    1 ≤ (runModel
      { genResult := .ok "draft"
        critiqueF := fun _ _ => .error (.modelApi "Gemini API call failed for gemini")
        refineF := fun _ t _ => .ok t
        metaRes := fun _ _ => .ok "" }
      ⟨1, true, false, "gemini", none⟩).logWrites :=
  c1_log_flush_amended
    { genResult := .ok "draft"
      critiqueF := fun _ _ => .error (.modelApi "Gemini API call failed for gemini")
      refineF := fun _ t _ => .ok t
      metaRes := fun _ _ => .ok "" }
    ⟨1, true, false, "gemini", none⟩

/-- C2: with the meta-critic disabled and every call succeeding, a run with
`max_rounds = N` performs exactly the `N` critique/refine round pairs — the
records appended in round order `1 … N` — stops with the exact reason
`"Max rounds (N) reached."`, and returns the `N`-times-refined text. -/
theorem c2_max_rounds_reached (N : Nat) (g gm : String)
    (c : Nat → String → String) (r : Nat → String → String → String)
    (m : Nat → String) (ht : Bool) :
    runModel (okEnv g c r m) ⟨N, true, ht, gm, none⟩ =
      { critiques := okCrits c r g 0 N, refinements := okRefs c r g 0 N,
        reason := "Max rounds (" ++ toString N ++ ") reached.",
        finalOutput := okTextAfter c r g 0 N, initialModelUsed := some gm,
        logWrites := 1, result := .ok (okTextAfter c r g 0 N), genCalls := 1 } ∧
    (okCrits c r g 0 N).length = N ∧
    (okRefs c r g 0 N).length = N ∧
    (okCrits c r g 0 N).map Prod.fst = List.range' 1 N ∧
    (okRefs c r g 0 N).map Prod.fst = List.range' 1 N := by
  refine ⟨?_, okCrits_length c r N g 0, okRefs_length c r N g 0,
    okCrits_map_fst c r N g 0, okRefs_map_fst c r N g 0⟩
  have hloop := runCR_disabled_ok g c r m ht N 0 [] [] "" g
  unfold runModel
  simp only [generateStep, okEnv, Except.map] at hloop ⊢
  rw [hloop]
  simp

/-- C3: with the meta gate enabled and the verdict actionable in rounds
`1 … k-1` but non-actionable in round `k ≤ N` (all calls succeeding), the
run performs exactly `k` critique steps and `k-1` refine steps, records the
non-actionable stop reason for round `k`, and its final output is the text
after round `k-1`'s refine (the initial text when `k = 1`). -/
theorem c3_meta_stop_at_k (N k : Nat) (g gm : String)
    (c : Nat → String → String) (r : Nat → String → String → String)
    (m : Nat → String)
    (hk1 : 1 ≤ k) (hkN : k ≤ N)
    (hTrue : ∀ i ∈ List.range' 1 (k - 1), verdictB true (.ok (m i)) = .ok true)
    (hFalse : verdictB true (.ok (m k)) = .ok false) :
    runModel (okEnv g c r m) ⟨N, false, true, gm, none⟩ =
      { critiques := okCrits c r g 0 k, refinements := okRefs c r g 0 (k - 1),
        reason := "Non-actionable critique received in round " ++ toString k ++ ".",
        finalOutput := okTextAfter c r g 0 (k - 1), initialModelUsed := some gm,
        logWrites := 1, result := .ok (okTextAfter c r g 0 (k - 1)), genCalls := 1 } ∧
    (okCrits c r g 0 k).length = k ∧
    (okRefs c r g 0 (k - 1)).length = k - 1 := by
  refine ⟨?_, okCrits_length c r k g 0, okRefs_length c r (k - 1) g 0⟩
  have hidx : 0 + (k - 1) + 1 = k := by omega
  have hTrue2 : ∀ a, 0 < a → a ≤ 0 + (k - 1) → verdictB true (.ok (m a)) = .ok true := by
    intro a ha1 ha2
    exact hTrue a (by
      rw [List.mem_range'_1]
      omega)
  have hFalse2 : verdictB true (.ok (m (0 + (k - 1) + 1))) = .ok false := by
    rw [hidx]; exact hFalse
  have hloop := runCR_meta_stop g c r m (k - 1) N 0 [] [] "" g hTrue2 hFalse2 (by omega)
  rw [hidx] at hloop
  have hk2 : k - 1 + 1 = k := by omega
  rw [hk2] at hloop
  unfold runModel
  simp only [generateStep, okEnv, Except.map] at hloop ⊢
  rw [hloop]
  have hne := nonActionableReason_ne_empty k
  simp [hne]

/-- C3 witness: `max_rounds = 3`, actionable verdict in round 1 and
non-actionable verdict in round 2 — two critiques, one refinement, the
round-2 stop reason, and the once-refined text as final output. -/
theorem c3_meta_stop_at_k_witness :
    runModel
        (okEnv "draft" (fun _ t => t ++ "?")
          (fun _ t _ => t ++ " [refined]")
          (fun i => if i < 2 then "\x7b\"actionable\": true\x7d"
            else "\x7b\"actionable\": false\x7d"))
        ⟨3, false, true, "gemini", none⟩ =
      { critiques := [(1, "draft?"), (2, "draft [refined]?")],
        refinements := [(1, "draft [refined]")],
        reason := "Non-actionable critique received in round 2.",
        finalOutput := "draft [refined]", initialModelUsed := some "gemini",
        logWrites := 1, result := .ok "draft [refined]", genCalls := 1 } := by
  have h := (c3_meta_stop_at_k 3 2 "draft" "gemini" (fun _ t => t ++ "?")
    (fun _ t _ => t ++ " [refined]")
    (fun i => if i < 2 then "\x7b\"actionable\": true\x7d"
      else "\x7b\"actionable\": false\x7d")
    (by decide) (by decide) (by decide) (by decide)).1
  rw [h]
  rfl

/-- C6 (code bug): when the caller supplies the EMPTY string as content to
review, `initial_content_for_review or await call_model(...)` is falsy, so
the generator IS called and its output (here `"GENERATED"`) is used instead
of the supplied content — yet `model_used` still records
`"N/A (provided content for review)"` because that field tests
`is None` rather than truthiness. The claim's "content used verbatim, no
generator call" fails on this input. -/
theorem c6_empty_content_calls_generator :
    generateStep "gemini-pro" (some "") (.ok "GENERATED") =
      .ok ⟨"GENERATED", "N/A (provided content for review)", 1⟩ ∧
    generateStep "gemini-pro" (some "existing draft") (.ok "GENERATED") =
      .ok ⟨"existing draft", "N/A (provided content for review)", 0⟩ ∧
    generateStep "gemini-pro" none (.ok "GENERATED") =
      .ok ⟨"GENERATED", "gemini-pro", 1⟩ :=
  ⟨rfl, rfl, rfl⟩

end CritiqueRefine
